import Mathlib

/-!
Verification of the GuitarAccuracy onset-detection scripts.

Shallow embedding of the two Python scripts:
  * `src/scripts/librosa_onset_detection.py` (the "second script")
  * `src/AubioOnset.py` (the "first script")

Times (seconds) and thresholds are modelled as rationals (`ℚ`); the external
audio-library calls (librosa.load, onset_strength, onset_detect, beat_track,
frames_to_time, aubio source/onset) are black boxes per the spec and are
modelled as environment parameters supplying their outputs.  Python dynamic
typing matters for one bug pattern in the second script (`.tolist()` called
on a plain Python list), so the value flowing into `.tolist()` is modelled
with an explicit numpy-array-vs-list tag.
-/

deriving instance DecidableEq for Except

namespace GuitarAccuracy

/-- A Python value that may be a numpy ndarray or a plain Python list of
numbers.  `librosa.frames_to_time` returns an ndarray; a list comprehension
returns a plain list. -/
inductive PyObj where
  | ndarray (elems : List ℚ)
  | pylist (elems : List ℚ)
deriving DecidableEq

/-- Message of the Python AttributeError raised by `xs.tolist()` when `xs`
is a plain list. -/
def attrErrMsg : String := "AttributeError: list object has no attribute tolist"

/-- Python attribute call `obj.tolist()`: numpy ndarrays provide `tolist`,
plain Python lists do not, so the call raises AttributeError on them. -/
def pyTolist : PyObj → Except String (List ℚ)
  | .ndarray l => .ok l
  | .pylist _ => .error attrErrMsg

/-- Python builtin `abs` on a rational. -/
def absQ (q : ℚ) : ℚ := if q < 0 then -q else q

/-- Python `min(b :: bs, key = f)`: scan left to right keeping the current
minimiser, replacing it only on a strictly smaller key (first-wins on ties). -/
def pyMinKey (f : ℚ → ℚ) (a : ℚ) : List ℚ → ℚ
  | [] => a
  | x :: xs => if f x < f a then pyMinKey f x xs else pyMinKey f a xs

/-- Python `min(l, key = f)` on a list; `min` of an empty list raises in
Python, which never happens here because every call site is guarded by a
non-emptiness test, so the empty case carries a junk value. -/
def pyMinKeyList (f : ℚ → ℚ) : List ℚ → ℚ
  | [] => 0
  | b :: bs => pyMinKey f b bs

/-- Outputs of the external librosa calls made by the second script, per run.
`load` is the outcome of `librosa.load` (which may raise); the four time
lists are the ndarrays produced by `librosa.frames_to_time` on the outputs
of `onset_detect` / `beat_track` under the parameter sets of
`detect_onsets_only`, `detect_beats_only` and `detect_combined`; and
`energyKeep t` models the energy-threshold test
`np.max(np.abs(y[int(t*sr):int(t*sr)+1024])) > min_linear`, which depends
only on the loaded audio, the sample rate and the dB threshold. -/
structure LibrosaEnv where
  load : Except String Unit
  onsetTimes : List ℚ
  beatTimes : List ℚ
  cOnsetTimes : List ℚ
  cBeatTimes : List ℚ
  energyKeep : ℚ → Bool

/-- `detect_onsets_only` (lines 46-78): energy-filter the detected onset
times with a list comprehension (producing a plain list), then call
`.tolist()` on the result. -/
def detect_onsets_only (env : LibrosaEnv) : Except String (List ℚ) :=
  let onset_times := env.onsetTimes.filter env.energyKeep
  pyTolist (PyObj.pylist onset_times)

/-- `detect_beats_only` (lines 80-108): energy-filter the detected beat
times with a list comprehension (producing a plain list), then call
`.tolist()` on the result. -/
def detect_beats_only (env : LibrosaEnv) : Except String (List ℚ) :=
  let beat_times := env.beatTimes.filter env.energyKeep
  pyTolist (PyObj.pylist beat_times)

/-- `detect_combined` (lines 110-171).  After line 151 the name
`onset_times` is bound to a plain Python list (list comprehension), so the
`return onset_times.tolist()` statements at lines 167 and 171 go through
`pyTolist` on a `pylist`. -/
def detect_combined (env : LibrosaEnv) : Except String (List ℚ) :=
  let onset_times := env.cOnsetTimes.filter env.energyKeep
  let beat_times := env.cBeatTimes
  if beat_times.length > 0 then
    let beat_threshold : ℚ := 1/5
    let filtered_onsets := onset_times.filter fun onset =>
      decide (absQ (pyMinKeyList (fun x => absQ (x - onset)) beat_times - onset) < beat_threshold)
    if (filtered_onsets.length : ℚ) < (onset_times.length : ℚ) * (3/10) then
      pyTolist (PyObj.pylist onset_times)
    else
      Except.ok filtered_onsets
  else
    pyTolist (PyObj.pylist onset_times)

/-- Body of the `try` block of `detect_onsets_librosa` (lines 26-40):
load the audio, then dispatch on the method name, raising
`ValueError("Unknown method: ...")` on anything outside
onset/beat/combined. -/
def librosaBody (env : LibrosaEnv) (method : String) : Except String (List ℚ) :=
  match env.load with
  | .error e => .error e
  | .ok _ =>
    if method = "onset" then detect_onsets_only env
    else if method = "beat" then detect_beats_only env
    else if method = "combined" then detect_combined env
    else .error ("Unknown method: " ++ method)

/-- `detect_onsets_librosa` (lines 14-44): run the body; any exception is
caught, a message is printed to standard error (modelled as the second
component), and the empty list is returned. -/
def detect_onsets_librosa (env : LibrosaEnv) (audio_file : String) (method : String) :
    List ℚ × List String :=
  match librosaBody env method with
  | .ok l => (l, [])
  | .error e => ([], ["Error processing " ++ audio_file ++ ": " ++ e])

/-- A JSON value as used by the output document of the second script. -/
inductive JVal where
  | num (q : ℚ)
  | str (s : String)
  | arr (l : List ℚ)
  | int (n : ℕ)
deriving DecidableEq

/-- The `result` dict built by `main` of the second script (lines 192-197),
as an ordered key/value list (Python dicts keep insertion order, and
`json.dump` serialises the keys in that order). -/
def script2Result (env : LibrosaEnv) (audio_file : String) (min_db : ℚ)
    (method : String) : List (String × JVal) :=
  let onset_times := (detect_onsets_librosa env audio_file method).1
  [("onset_times", JVal.arr onset_times),
   ("method", JVal.str method),
   ("min_db", JVal.num min_db),
   ("count", JVal.int onset_times.length)]

/-- Environment exercising the happy branch of `detect_combined`: onsets
`[1, 1.05, 2.5, 3]` (all passing the energy filter) and beats `[1, 2, 3]`. -/
def envCombinedKeep : LibrosaEnv :=
  { load := .ok (), onsetTimes := [], beatTimes := [],
    cOnsetTimes := [1, 21/20, 5/2, 3], cBeatTimes := [1, 2, 3],
    energyKeep := fun _ => true }

/-- Environment driving `detect_combined` into the over-pruning fallback:
onsets `[1, 2, 3, 4, 5]`, single far-away beat `[100]`, so the proximity
filter keeps nothing and `0 < 5 * 0.3` selects the fallback branch. -/
def envCombinedFallback : LibrosaEnv :=
  { load := .ok (), onsetTimes := [], beatTimes := [],
    cOnsetTimes := [1, 2, 3, 4, 5], cBeatTimes := [100],
    energyKeep := fun _ => true }

/-- Claim C1: on the branch where the proximity filter keeps at least 30%
of the onsets, `detect_combined` returns exactly the onsets within 0.2 s of
their nearest beat; but on the fallback branch (filtered size below 30%),
instead of returning the unfiltered onsets it evaluates
`onset_times.tolist()` on a plain list, raising AttributeError, which the
caller `detect_onsets_librosa` converts into an empty result with a message
on standard error. -/
theorem detect_combined_fallback_raises :
    detect_combined envCombinedKeep = .ok [1, 21/20, 3] ∧
    detect_combined envCombinedFallback = .error attrErrMsg ∧
    detect_onsets_librosa envCombinedFallback "clip.wav" "combined" =
      ([], ["Error processing clip.wav: " ++ attrErrMsg]) := by
  have h : librosaBody envCombinedFallback "combined" = .error attrErrMsg := by
    norm_num [librosaBody, detect_combined, envCombinedFallback, pyMinKeyList, pyMinKey,
      absQ, pyTolist]
    simp
  refine ⟨?_, ?_, ?_⟩
  · norm_num [detect_combined, envCombinedKeep, pyMinKeyList, pyMinKey, absQ]
  · norm_num [detect_combined, envCombinedFallback, pyMinKeyList, pyMinKey, absQ, pyTolist,
      attrErrMsg]
  · simp [detect_onsets_librosa, h, attrErrMsg]

/-- Environment for a small successful run: audio loads, some detections. -/
def envSmall : LibrosaEnv :=
  { load := .ok (), onsetTimes := [2, 3], beatTimes := [4],
    cOnsetTimes := [1], cBeatTimes := [1], energyKeep := fun _ => true }

/-- Environment in which `librosa.load` raises. -/
def envLoadFail : LibrosaEnv :=
  { load := .error "load failed", onsetTimes := [], beatTimes := [],
    cOnsetTimes := [], cBeatTimes := [], energyKeep := fun _ => true }

/-- Claim C2: whenever the audio loads successfully, methods `onset` and
`beat` return the empty list: `detect_onsets_only` and `detect_beats_only`
energy-filter with a list comprehension (a plain Python list) and then call
`.tolist()` on it, which raises AttributeError, and the broad `except` of
`detect_onsets_librosa` turns the exception into `[]` plus a standard-error
message. -/
theorem onset_beat_methods_always_empty (env : LibrosaEnv) (file : String)
    (h : env.load = .ok ()) :
    detect_onsets_only env = .error attrErrMsg ∧
    detect_beats_only env = .error attrErrMsg ∧
    detect_onsets_librosa env file "onset" =
      ([], ["Error processing " ++ file ++ ": " ++ attrErrMsg]) ∧
    detect_onsets_librosa env file "beat" =
      ([], ["Error processing " ++ file ++ ": " ++ attrErrMsg]) := by
  have h1 : librosaBody env "onset" = .error attrErrMsg := by
    simp [librosaBody, h, detect_onsets_only, pyTolist]
  have h2 : librosaBody env "beat" = .error attrErrMsg := by
    simp [librosaBody, h, detect_beats_only, pyTolist]
  exact ⟨rfl, rfl, by simp [detect_onsets_librosa, h1], by simp [detect_onsets_librosa, h2]⟩

/-- Witness for C2 at a concrete environment. -/
theorem onset_beat_methods_always_empty_witness :
    envSmall.load = Except.ok () ∧
    detect_onsets_librosa envSmall "a.wav" "onset" =
      ([], ["Error processing " ++ "a.wav" ++ ": " ++ attrErrMsg]) :=
  ⟨rfl, (onset_beat_methods_always_empty envSmall "a.wav" rfl).2.2.1⟩

/-- Claim C3 counterexample: an unknown method name is neither rejected
immediately nor surfaced to the caller as an error.  With a failing load
the body errors with the load failure, never reaching the method check
(so work is attempted before rejection), and with a successful load the
caller of `detect_onsets_librosa` receives a normal empty-list return, the
ValueError having been caught and only logged to standard error. -/
theorem unknown_method_not_surfaced_cex :
    librosaBody envLoadFail "bogus" = .error "load failed" ∧
    detect_onsets_librosa envSmall "clip.wav" "bogus" =
      ([], ["Error processing clip.wav: Unknown method: bogus"]) := by
  refine ⟨rfl, ?_⟩
  have hb : librosaBody envSmall "bogus" = .error ("Unknown method: " ++ "bogus") := by
    simp [librosaBody, envSmall]
  simp [detect_onsets_librosa, hb]

/-- Claim C3 (amended): a method name outside onset/beat/combined makes the
try-block body raise ValueError with message `Unknown method: ...` — but
only after `librosa.load` has already run; the surrounding `except` catches
it, logs it to standard error, and the caller receives the empty list. -/
theorem unknown_method_amended (env : LibrosaEnv) (file method : String)
    (hld : env.load = .ok ()) (h1 : method ≠ "onset") (h2 : method ≠ "beat")
    (h3 : method ≠ "combined") :
    librosaBody env method = .error ("Unknown method: " ++ method) ∧
    detect_onsets_librosa env file method =
      ([], ["Error processing " ++ file ++ ": " ++ ("Unknown method: " ++ method)]) := by
  have hb : librosaBody env method = .error ("Unknown method: " ++ method) := by
    simp [librosaBody, hld, h1, h2, h3]
  exact ⟨hb, by simp [detect_onsets_librosa, hb]⟩

/-- Witness for the amended C3 at a concrete environment and method. -/
theorem unknown_method_amended_witness :
    envSmall.load = Except.ok () ∧
    detect_onsets_librosa envSmall "c.wav" "xyz" =
      ([], ["Error processing " ++ "c.wav" ++ ": " ++ ("Unknown method: " ++ "xyz")]) :=
  ⟨rfl, (unknown_method_amended envSmall "c.wav" "xyz" rfl (by decide) (by decide)
    (by decide)).2⟩

/-- Claim C4: any exception raised inside the acquisition/filter pipeline is
caught by `detect_onsets_librosa`, its message is written to standard error
(with the `Error processing <file>:` prefix), and the run degrades to an
empty onset list instead of aborting. -/
theorem librosa_error_caught (env : LibrosaEnv) (file method msg : String)
    (h : librosaBody env method = .error msg) :
    detect_onsets_librosa env file method =
      ([], ["Error processing " ++ file ++ ": " ++ msg]) := by
  simp [detect_onsets_librosa, h]

/-- Witness for C4: a failing `librosa.load` degrades to an empty result. -/
theorem librosa_error_caught_witness :
    detect_onsets_librosa envLoadFail "b.wav" "combined" =
      ([], ["Error processing " ++ "b.wav" ++ ": " ++ "load failed"]) :=
  librosa_error_caught envLoadFail "b.wav" "combined" "load failed" rfl

/-- Claim C10: the emitted JSON document has exactly the keys
`onset_times`, `method`, `min_db`, `count` (in that order); `method` and
`min_db` reproduce the run parameters; `count` equals the length of
`onset_times`; and an empty onset list yields a well-formed document with
`count = 0`. -/
theorem result_document_schema (env : LibrosaEnv) (file method : String) (mdb : ℚ) :
    (script2Result env file mdb method).map Prod.fst =
      ["onset_times", "method", "min_db", "count"] ∧
    (script2Result env file mdb method).lookup "method" = some (JVal.str method) ∧
    (script2Result env file mdb method).lookup "min_db" = some (JVal.num mdb) ∧
    (script2Result env file mdb method).lookup "count" =
      some (JVal.int (detect_onsets_librosa env file method).1.length) ∧
    ((detect_onsets_librosa env file method).1 = [] →
      (script2Result env file mdb method).lookup "count" = some (JVal.int 0)) := by
  refine ⟨rfl, ?_, ?_, ?_, ?_⟩
  · simp [script2Result, List.lookup]
  · simp [script2Result, List.lookup]
  · simp [script2Result, List.lookup]
  · intro h
    simp [script2Result, List.lookup, h]

/-- Witness for C10: a run that degrades to an empty onset list still
produces a well-formed document with count 0. -/
theorem result_document_schema_witness :
    (script2Result envLoadFail "d.wav" (-50) "combined").lookup "count" =
      some (JVal.int 0) :=
  (result_document_schema envLoadFail "d.wav" "combined" (-50)).2.2.2.2 rfl

/-- FFT window size of the first script (line 25). -/
def win_s : ℕ := 512

/-- Hop size of the first script (line 26): half the window. -/
def hop_s : ℕ := win_s / 2

/-- Policy selector of the first script (lines 34-45): choose the aubio
onset method and threshold from the expected note count.  Total over ℤ:
the first branch also absorbs zero and negative counts. -/
def onsetPolicy (expected_notes : ℤ) : String × ℚ :=
  if expected_notes ≤ 8 then ("hfc", 3/10)
  else if expected_notes ≤ 16 then ("default", 1/2)
  else ("energy", 7/10)

/-- Loop body of the refractory filter (lines 79-82): keep an onset exactly
when its time minus the last kept time is at least the minimum gap, and
update the last kept time only on keep. -/
def refractoryLoop (g : ℚ) : ℚ → List ℚ → List ℚ
  | _, [] => []
  | last, t :: ts =>
    if g ≤ t - last then t :: refractoryLoop g t ts
    else refractoryLoop g last ts

/-- Refractory suppression (lines 73-84): applied only when
`min_wait_frames > 0`, with gap `min_wait_frames * hop_s / samplerate`
seconds and the last-kept time initialised to minus the gap. -/
def refractoryFilter (min_wait_frames : ℤ) (samplerate : ℚ) (onsets : List ℚ) : List ℚ :=
  if 0 < min_wait_frames then
    let min_wait_seconds := (min_wait_frames : ℚ) * (hop_s : ℚ) / samplerate
    refractoryLoop min_wait_seconds (-min_wait_seconds) onsets
  else onsets

/-- Leading-edge suppression (lines 86-92): keep onsets at or after 0.1 s. -/
def leadingEdgeFilter (onsets : List ℚ) : List ℚ :=
  onsets.filter fun t => decide ((1/10 : ℚ) ≤ t)

/-- Trailing-edge suppression (lines 94-101): keep onsets at or before 15 s. -/
def trailingEdgeFilter (onsets : List ℚ) : List ℚ :=
  onsets.filter fun t => decide (t ≤ (15 : ℚ))

/-- Full postprocessing chain of `detect_onsets_aubio` (lines 73-103):
refractory suppression, then leading-edge, then trailing-edge filtering. -/
def aubioPostprocess (min_wait_frames : ℤ) (samplerate : ℚ) (onsets : List ℚ) : List ℚ :=
  trailingEdgeFilter (leadingEdgeFilter (refractoryFilter min_wait_frames samplerate onsets))

/-- Spec-side formulation of refractory suppression (spec §4.3 item 1):
keep the first onset unconditionally, then scan with the same keep rule. -/
def specRefractory (g : ℚ) : List ℚ → List ℚ
  | [] => []
  | t :: ts => t :: refractoryLoop g t ts

theorem refractoryLoop_sublist (g : ℚ) (l : List ℚ) :
    ∀ last, (refractoryLoop g last l).Sublist l := by
  induction l with
  | nil => intro last; simp [refractoryLoop]
  | cons t ts ih =>
    intro last
    simp only [refractoryLoop]
    by_cases h : g ≤ t - last
    · simp only [if_pos h]
      exact List.Sublist.cons₂ t (ih t)
    · simp only [if_neg h]
      exact List.Sublist.cons t (ih last)

theorem refractoryLoop_chain (g : ℚ) (l : List ℚ) :
    ∀ last, List.Chain (fun a b => g ≤ b - a) last (refractoryLoop g last l) := by
  induction l with
  | nil => intro last; simp [refractoryLoop]
  | cons t ts ih =>
    intro last
    simp only [refractoryLoop]
    by_cases h : g ≤ t - last
    · simp only [if_pos h]
      exact List.Chain.cons h (ih t)
    · simp only [if_neg h]
      exact ih last

theorem chain_chain' {R : ℚ → ℚ → Prop} {a : ℚ} {l : List ℚ}
    (h : List.Chain R a l) : List.Chain' R l := by
  cases l with
  | nil => trivial
  | cons b bs => exact (List.chain_cons.mp h).2

theorem chain_of_chain' {R : ℚ → ℚ → Prop} {a : ℚ} {l : List ℚ}
    (h' : List.Chain' R l) (hhead : ∀ b ∈ l.head?, R a b) :
    List.Chain R a l := by
  cases l with
  | nil => exact List.Chain.nil
  | cons b bs => exact List.Chain.cons (hhead b rfl) h'

theorem refractoryLoop_eq_self (g : ℚ) (l : List ℚ) :
    ∀ last, List.Chain (fun a b => g ≤ b - a) last l →
      refractoryLoop g last l = l := by
  induction l with
  | nil => intro last _; rfl
  | cons t ts ih =>
    intro last h
    rcases List.chain_cons.mp h with ⟨h1, h2⟩
    simp only [refractoryLoop, if_pos h1]
    rw [ih t h2]

/-- Claim C5: for non-negative, non-decreasing candidate times and gap
`g = min_wait_frames * hop_s / samplerate` with `min_wait_frames > 0`,
refractory suppression keeps the first onset unconditionally and each
subsequent onset exactly when its time minus the last kept time is ≥ g
(equality counts as satisfying), updating the last kept time only on keep;
the output is a subsequence of the input whose consecutive pairs are at
least g apart. -/
theorem refractory_suppression_spec (mwf : ℤ) (sr : ℚ) (hm : 0 < mwf) (hsr : 0 < sr)
    (onsets : List ℚ) (hnn : ∀ t ∈ onsets, 0 ≤ t)
    (hsort : onsets.Sorted (· ≤ ·)) :
    refractoryFilter mwf sr onsets =
      specRefractory ((mwf : ℚ) * (hop_s : ℚ) / sr) onsets ∧
    (refractoryFilter mwf sr onsets).Sublist onsets ∧
    (refractoryFilter mwf sr onsets).Chain'
      (fun a b => (mwf : ℚ) * (hop_s : ℚ) / sr ≤ b - a) := by
  set g : ℚ := (mwf : ℚ) * (hop_s : ℚ) / sr with hg
  have hrf : refractoryFilter mwf sr onsets = refractoryLoop g (-g) onsets := by
    simp [refractoryFilter, hm, hg]
  refine ⟨?_, ?_, ?_⟩
  · rw [hrf]
    cases onsets with
    | nil => rfl
    | cons t ts =>
      have ht : 0 ≤ t := hnn t (List.mem_cons_self t ts)
      have hkeep : g ≤ t - (-g) := by linarith
      simp only [refractoryLoop, specRefractory, if_pos hkeep]
  · rw [hrf]
    exact refractoryLoop_sublist g onsets (-g)
  · rw [hrf]
    exact chain_chain' (refractoryLoop_chain g onsets (-g))

/-- Witness for C5 on the spec's own example list with the script's default
configuration (`min_wait_frames = 30`, 44.1 kHz). -/
theorem refractory_suppression_spec_witness :
    refractoryFilter 30 44100 [1/10, 3/25, 1/2, 4/5] =
      specRefractory ((30 : ℚ) * (hop_s : ℚ) / 44100) [1/10, 3/25, 1/2, 4/5] :=
  (refractory_suppression_spec 30 44100 (by decide) (by norm_num)
    [1/10, 3/25, 1/2, 4/5]
    (by intro t ht; simp at ht; rcases ht with h | h | h | h <;> rw [h] <;> norm_num)
    (by simp [List.sorted_cons]; norm_num)).1

/-- Claim C6: leading- and trailing-edge suppression drop exactly the
onsets earlier than 0.1 s or later than 15 s; every surviving time lies in
[0.1, 15], every input time inside the bounds is retained, and the
boundary values themselves are kept. -/
theorem edge_suppression_spec (l : List ℚ) :
    trailingEdgeFilter (leadingEdgeFilter l) =
      l.filter (fun t => decide ((1/10 : ℚ) ≤ t ∧ t ≤ 15)) ∧
    (∀ t ∈ trailingEdgeFilter (leadingEdgeFilter l), (1/10 : ℚ) ≤ t ∧ t ≤ 15) ∧
    (∀ t ∈ l, (1/10 : ℚ) ≤ t → t ≤ 15 → t ∈ trailingEdgeFilter (leadingEdgeFilter l)) := by
  refine ⟨?_, ?_, ?_⟩
  · simp only [trailingEdgeFilter, leadingEdgeFilter, List.filter_filter]
    congr 1
    funext t
    by_cases h1 : (1/10 : ℚ) ≤ t <;> by_cases h2 : t ≤ 15 <;> simp [h1, h2]
  · intro t ht
    simp only [trailingEdgeFilter, leadingEdgeFilter, List.mem_filter,
      decide_eq_true_eq] at ht
    exact ⟨ht.1.2, ht.2⟩
  · intro t ht h1 h2
    simp only [trailingEdgeFilter, leadingEdgeFilter, List.mem_filter,
      decide_eq_true_eq]
    exact ⟨⟨ht, h1⟩, h2⟩

/-- Witness for C6 on the spec's example: `[0.05, 1, 16]` keeps only `1`,
and the boundary values 0.1 and 15 are retained. -/
theorem edge_suppression_spec_witness :
    (1 : ℚ) ∈ trailingEdgeFilter (leadingEdgeFilter [1/20, 1, 16]) ∧
    (1/10 : ℚ) ∈ trailingEdgeFilter (leadingEdgeFilter [1/10, 15]) ∧
    (15 : ℚ) ∈ trailingEdgeFilter (leadingEdgeFilter [1/10, 15]) :=
  ⟨(edge_suppression_spec [1/20, 1, 16]).2.2 1 (by norm_num) (by norm_num) (by norm_num),
   (edge_suppression_spec [1/10, 15]).2.2 (1/10) (by norm_num) (by norm_num) (by norm_num),
   (edge_suppression_spec [1/10, 15]).2.2 15 (by norm_num) (by norm_num) (by norm_num)⟩

/-- Claim C7: the policy selector is total over ℤ: `hfc`/0.3 for
`expected_notes ≤ 8` (including zero and negatives), `default`/0.5 for
9..16, `energy`/0.7 above 16, always with window 512 and hop 256, and it
can never fail. -/
theorem policy_selector_total (n : ℤ) :
    (n ≤ 8 → onsetPolicy n = ("hfc", 3/10)) ∧
    (9 ≤ n → n ≤ 16 → onsetPolicy n = ("default", 1/2)) ∧
    (16 < n → onsetPolicy n = ("energy", 7/10)) ∧
    win_s = 512 ∧ hop_s = 256 := by
  refine ⟨?_, ?_, ?_, rfl, rfl⟩
  · intro h
    simp [onsetPolicy, h]
  · intro h1 h2
    have h3 : ¬ n ≤ 8 := by omega
    simp [onsetPolicy, h3, h2]
  · intro h
    have h1 : ¬ n ≤ 8 := by omega
    have h2 : ¬ n ≤ 16 := by omega
    simp [onsetPolicy, h1, h2]

/-- Witness for C7 at one value of each bucket, including a negative count. -/
theorem policy_selector_total_witness :
    onsetPolicy (-3) = ("hfc", 3/10) ∧ onsetPolicy 12 = ("default", 1/2) ∧
    onsetPolicy 20 = ("energy", 7/10) :=
  ⟨(policy_selector_total (-3)).1 (by decide),
   (policy_selector_total 12).2.1 (by decide) (by decide),
   (policy_selector_total 20).2.2.1 (by decide)⟩

theorem mem_edgeFilters {x : List ℚ} {a : ℚ} :
    a ∈ trailingEdgeFilter (leadingEdgeFilter x) ↔
      a ∈ x ∧ (1/10 : ℚ) ≤ a ∧ a ≤ 15 := by
  simp only [trailingEdgeFilter, leadingEdgeFilter, List.mem_filter,
    decide_eq_true_eq, and_assoc]

theorem edgeFilters_eq_self {y : List ℚ}
    (h : ∀ a ∈ y, (1/10 : ℚ) ≤ a ∧ a ≤ 15) :
    trailingEdgeFilter (leadingEdgeFilter y) = y := by
  have h1 : leadingEdgeFilter y = y :=
    List.filter_eq_self.mpr fun a ha => decide_eq_true (h a ha).1
  have h2 : trailingEdgeFilter y = y :=
    List.filter_eq_self.mpr fun a ha => decide_eq_true (h a ha).2
  rw [h1, h2]

theorem transGap (g : ℚ) (hg : 0 ≤ g) : IsTrans ℚ (fun a b : ℚ => g ≤ b - a) :=
  ⟨fun a b c hab hbc => by
    have h1 : g ≤ b - a := hab
    have h2 : g ≤ c - b := hbc
    show g ≤ c - a
    linarith⟩

/-- Claim C8: with an active refractory configuration, the full
postprocessing chain of the first script outputs a subsequence of its
input; on a non-decreasing input the output is again non-decreasing, and
in fact strictly increasing. -/
theorem aubio_chain_order (mwf : ℤ) (sr : ℚ) (hm : 0 < mwf) (hsr : 0 < sr)
    (l : List ℚ) (hs : l.Sorted (· ≤ ·)) :
    (aubioPostprocess mwf sr l).Sublist l ∧
    (aubioPostprocess mwf sr l).Sorted (· ≤ ·) ∧
    (aubioPostprocess mwf sr l).Sorted (· < ·) := by
  have hg : 0 < (mwf : ℚ) * (hop_s : ℚ) / sr := by
    have h1 : (0 : ℚ) < (mwf : ℚ) := by exact_mod_cast hm
    have h2 : (0 : ℚ) < (hop_s : ℚ) := by norm_num [hop_s, win_s]
    positivity
  have hrf : refractoryFilter mwf sr l =
      refractoryLoop ((mwf : ℚ) * (hop_s : ℚ) / sr)
        (-((mwf : ℚ) * (hop_s : ℚ) / sr)) l := by
    simp [refractoryFilter, hm]
  have hsub1 : (aubioPostprocess mwf sr l).Sublist (refractoryFilter mwf sr l) := by
    unfold aubioPostprocess trailingEdgeFilter leadingEdgeFilter
    exact (List.filter_sublist _).trans (List.filter_sublist _)
  have hsub : (aubioPostprocess mwf sr l).Sublist l := by
    refine hsub1.trans ?_
    rw [hrf]
    exact refractoryLoop_sublist _ l _
  have hchain : (refractoryFilter mwf sr l).Chain'
      (fun a b => (mwf : ℚ) * (hop_s : ℚ) / sr ≤ b - a) := by
    rw [hrf]
    exact chain_chain' (refractoryLoop_chain _ l _)
  haveI := transGap ((mwf : ℚ) * (hop_s : ℚ) / sr) hg.le
  have hpw : (refractoryFilter mwf sr l).Pairwise
      (fun a b => (mwf : ℚ) * (hop_s : ℚ) / sr ≤ b - a) :=
    List.chain'_iff_pairwise.mp hchain
  have hpw2 : (aubioPostprocess mwf sr l).Pairwise
      (fun a b => (mwf : ℚ) * (hop_s : ℚ) / sr ≤ b - a) :=
    List.Pairwise.sublist hsub1 hpw
  have hlt : (aubioPostprocess mwf sr l).Pairwise (· < ·) := by
    refine hpw2.imp ?_
    intro a b hab
    have hab' : (mwf : ℚ) * (hop_s : ℚ) / sr ≤ b - a := hab
    linarith
  exact ⟨hsub, List.Pairwise.sublist hsub hs, hlt⟩

/-- Witness for C8 on a sorted input with a duplicate and an out-of-range
value, at the default configuration. -/
theorem aubio_chain_order_witness :
    (aubioPostprocess 30 44100 [0, 1/10, 3/25, 1/2, 1/2, 20]).Sublist
      [0, 1/10, 3/25, 1/2, 1/2, 20] ∧
    (aubioPostprocess 30 44100 [0, 1/10, 3/25, 1/2, 1/2, 20]).Sorted (· < ·) :=
  ⟨(aubio_chain_order 30 44100 (by decide) (by norm_num) _
      (by simp [List.sorted_cons]; norm_num)).1,
   (aubio_chain_order 30 44100 (by decide) (by norm_num) _
      (by simp [List.sorted_cons]; norm_num)).2.2⟩

/-- Claim C9: the full filter chain of the first script is idempotent:
applied to its own output it returns that output unchanged, for every
input list and every configuration with a positive sample rate. -/
theorem filter_chain_idempotent (mwf : ℤ) (sr : ℚ) (hsr : 0 < sr) (l : List ℚ) :
    aubioPostprocess mwf sr (aubioPostprocess mwf sr l) = aubioPostprocess mwf sr l := by
  by_cases hm : 0 < mwf
  · have hg : 0 < (mwf : ℚ) * (hop_s : ℚ) / sr := by
      have h1 : (0 : ℚ) < (mwf : ℚ) := by exact_mod_cast hm
      have h2 : (0 : ℚ) < (hop_s : ℚ) := by norm_num [hop_s, win_s]
      positivity
    have hrf : ∀ x : List ℚ, refractoryFilter mwf sr x =
        refractoryLoop ((mwf : ℚ) * (hop_s : ℚ) / sr)
          (-((mwf : ℚ) * (hop_s : ℚ) / sr)) x := by
      intro x
      simp [refractoryFilter, hm]
    have hpost : aubioPostprocess mwf sr l =
        trailingEdgeFilter (leadingEdgeFilter
          (refractoryLoop ((mwf : ℚ) * (hop_s : ℚ) / sr)
            (-((mwf : ℚ) * (hop_s : ℚ) / sr)) l)) := by
      unfold aubioPostprocess
      rw [hrf]
    haveI := transGap ((mwf : ℚ) * (hop_s : ℚ) / sr) hg.le
    have hcx : (refractoryLoop ((mwf : ℚ) * (hop_s : ℚ) / sr)
        (-((mwf : ℚ) * (hop_s : ℚ) / sr)) l).Chain'
        (fun a b => (mwf : ℚ) * (hop_s : ℚ) / sr ≤ b - a) :=
      chain_chain' (refractoryLoop_chain _ l _)
    have hsubyx : (aubioPostprocess mwf sr l).Sublist
        (refractoryLoop ((mwf : ℚ) * (hop_s : ℚ) / sr)
          (-((mwf : ℚ) * (hop_s : ℚ) / sr)) l) := by
      rw [hpost]
      exact (List.filter_sublist _).trans (List.filter_sublist _)
    have hpy : (aubioPostprocess mwf sr l).Pairwise
        (fun a b => (mwf : ℚ) * (hop_s : ℚ) / sr ≤ b - a) :=
      List.Pairwise.sublist hsubyx (List.chain'_iff_pairwise.mp hcx)
    have hcy : (aubioPostprocess mwf sr l).Chain'
        (fun a b => (mwf : ℚ) * (hop_s : ℚ) / sr ≤ b - a) :=
      List.chain'_iff_pairwise.mpr hpy
    have hbounds : ∀ a ∈ aubioPostprocess mwf sr l, (1/10 : ℚ) ≤ a ∧ a ≤ 15 := by
      intro a ha
      rw [hpost] at ha
      exact (mem_edgeFilters.mp ha).2
    have hchainy : List.Chain (fun a b => (mwf : ℚ) * (hop_s : ℚ) / sr ≤ b - a)
        (-((mwf : ℚ) * (hop_s : ℚ) / sr)) (aubioPostprocess mwf sr l) := by
      refine chain_of_chain' hcy ?_
      intro b hb
      have hmem : b ∈ aubioPostprocess mwf sr l := List.mem_of_mem_head? hb
      have h1 : (1/10 : ℚ) ≤ b := (hbounds b hmem).1
      show (mwf : ℚ) * (hop_s : ℚ) / sr ≤ b - -((mwf : ℚ) * (hop_s : ℚ) / sr)
      linarith
    have hry : refractoryFilter mwf sr (aubioPostprocess mwf sr l) =
        aubioPostprocess mwf sr l := by
      rw [hrf]
      exact refractoryLoop_eq_self _ _ _ hchainy
    conv_lhs => rw [aubioPostprocess, hry]
    exact edgeFilters_eq_self hbounds
  · have hrf : ∀ x : List ℚ, refractoryFilter mwf sr x = x := by
      intro x
      simp [refractoryFilter, hm]
    have hbounds : ∀ a ∈ aubioPostprocess mwf sr l, (1/10 : ℚ) ≤ a ∧ a ≤ 15 := by
      intro a ha
      unfold aubioPostprocess at ha
      rw [hrf] at ha
      exact (mem_edgeFilters.mp ha).2
    conv_lhs => rw [aubioPostprocess, hrf]
    exact edgeFilters_eq_self hbounds

/-- Witness for C9 at the default configuration on a list with close,
early and late onsets. -/
theorem filter_chain_idempotent_witness :
    aubioPostprocess 30 44100 (aubioPostprocess 30 44100 [0, 1/10, 3/25, 1/2, 20]) =
      aubioPostprocess 30 44100 [0, 1/10, 3/25, 1/2, 20] :=
  filter_chain_idempotent 30 44100 (by norm_num) [0, 1/10, 3/25, 1/2, 20]

end GuitarAccuracy
